import Mathlib

/-!
Token.go (antlr4 Go runtime): tokens, lazy text resolution, canonical rendering.

A shallow embedding of `runtime/Go/src/antlr4/Token.go`.

Reading conventions for the source (an in-progress port that compares strings with
`nil`):

* a `string` that the source compares with `nil` is `Option String`; `nil` is `none`
  (the spec's "absent marker") and the zero value of such a field is `none`;
* the declared type of these strings is Go's `string`, which has no `nil` apart from its
  zero value, the empty string: `goString` reads a text field as the Go string it is
  (`none` and `some ""` are both `""`), and `CommonToken.textString` is `text()` with the
  field and the result of that type. What depends on how `nil` and the empty string relate
  (the text returned after `setText("")`, when the absent marker is returned) is settled on
  `textString`;
* a pointer (`*TokenSourceInputStreamPair`, `*TokenSource`, `*InputStream`) is an
  `Option`; dereferencing `nil` is the fault `Fault.nilDereference`;
* `int` is `Int`: the file does no arithmetic on integers, only comparisons and
  rendering, so no wrap-around can occur;
* `"..." + i` for an integer `i` is the decimal rendering of `i`;
* Go strings are modelled by their sequence of characters;
* the collaborators `TokenSource` and `InputStream` are not defined in the file; they are
  records of what the token code observes of them, and every observation is logged as an
  `Access`, so that "is not consulted" is a statement about the log;
* where aliasing matters (a copy next to its original, what a call leaves unchanged) a
  `*CommonToken` is an address into a `Store` of token objects.
-/

namespace Antlr4

/-! ## Execution model: faults and the log of collaborator accesses -/

/-- Run-time faults of the embedded code. -/
inductive Fault where
  | nilDereference
  deriving DecidableEq, Repr

/-- One observation made on a collaborator: `line()` / `column()` of the token source,
`size` / `getText(start, stop)` of the input stream. -/
inductive Access where
  | line
  | column
  | size
  | getText (start stop : Int)
  deriving DecidableEq, Repr

/-- A computation that either faults or returns a value together with the accesses it
made, in program order. -/
def Exec (α : Type) : Type := Except Fault (α × List Access)

namespace Exec

/-- Return `a` having made exactly the accesses `log`. -/
def ok {α : Type} (a : α) (log : List Access) : Exec α := Except.ok (a, log)

/-- Stop with fault `f`. -/
def fault {α : Type} (f : Fault) : Exec α := Except.error f

/-- Perform one access `ev` on a collaborator, whose answer is `a`. -/
def call {α : Type} (ev : Access) (a : α) : Exec α := Exec.ok a [ev]

/-- Sequencing: the log of the whole is the concatenation of the logs. -/
def bind {α β : Type} (x : Exec α) (f : α → Exec β) : Exec β :=
  match x with
  | Except.error e => Except.error e
  | Except.ok (a, l₁) =>
    match f a with
    | Except.error e => Except.error e
    | Except.ok (b, l₂) => Except.ok (b, l₁ ++ l₂)

instance : Monad Exec where
  pure a := Exec.ok a []
  bind := Exec.bind

/-- Dereference a pointer: `nil` faults. -/
def deref {α : Type} : Option α → Exec α
  | some a => Exec.ok a []
  | none => Exec.fault Fault.nilDereference

end Exec

/-! ## Library functions used by the source -/

namespace strings

/-- Worker of `Replace` for a non-empty `old`: scan left to right; `skip` counts the
characters of an occurrence already replaced that are still to be dropped, `limit` the
replacements still allowed (`none`: no limit). -/
def replaceScan (old new : List Char) : List Char → Nat → Option Nat → List Char
  | [], _, _ => []
  | _ :: cs, skip + 1, limit => replaceScan old new cs skip limit
  | c :: cs, 0, limit =>
    if limit ≠ some 0 ∧ old.isPrefixOf (c :: cs) then
      new ++ replaceScan old new cs (old.length - 1) (limit.map (· - 1))
    else
      c :: replaceScan old new cs 0 limit

/-- Worker of `Replace` for an empty `old`: it matches before every character and at the
end of the string. -/
def replaceEmpty (new : List Char) : List Char → Option Nat → List Char
  | s, some 0 => s
  | [], _ => new
  | c :: cs, limit => new ++ c :: replaceEmpty new cs (limit.map (· - 1))

/-- Go `strings.Replace(s, old, new, n)`: a copy of `s` with the first `n`
non-overlapping occurrences of `old` replaced by `new`; `n < 0` means no limit. -/
def Replace (s old new : String) (n : Int) : String :=
  let limit : Option Nat := if n < 0 then none else some n.toNat
  if old.data = [] then
    ⟨replaceEmpty new.data s.data limit⟩
  else
    ⟨replaceScan old.data new.data s.data 0 limit⟩

end strings

/-- The rendering of an integer operand of `+` on strings: decimal digits, with a leading
minus sign when negative. -/
def intToString (i : Int) : String := toString i

/-! ## Data model -/

/-- The token source (lexer) as the token code sees it: its current `line()` and
`column()`. -/
structure TokenSource where
  line : Int
  column : Int

/-- The input stream as the token code sees it: its `size` and `getText(start, stop)`. -/
structure InputStream where
  size : Int
  getText : Int → Int → String

/-- Source: `type TokenSourceInputStreamPair struct`. -/
structure TokenSourceInputStreamPair where
  tokenSource : Option TokenSource
  inputStream : Option InputStream

/-- Source: `type Token struct`; the defaults are Go's zero values. -/
structure Token where
  source : Option TokenSourceInputStreamPair := none
  tokenType : Int := 0
  channel : Int := 0
  start : Int := 0
  stop : Int := 0
  tokenIndex : Int := 0
  line : Int := 0
  column : Int := 0
  _text : Option String := none

/-- Source: `type CommonToken struct { Token }`. -/
structure CommonToken extends Token

/-! ## Constants -/

def TokenInvalidType : Int := 0
def TokenEpsilon : Int := -2
def TokenMinUserTokenType : Int := 1
def TokenEOF : Int := -1
def TokenDefaultChannel : Int := 0
def TokenHiddenChannel : Int := 1

/-! ## Operations -/

/-- A text field read as the Go `string` it is declared to be: `nil` is the zero value of
the type, the empty string. -/
def goString : Option String → String
  | some s => s
  | none => ""

/-- Source: `func (this *Token) text() string`, the field as the Go string it is. -/
def Token.text (this : Token) : String :=
  goString this._text

/-- Source: `func (this *Token) setText(s string)`; returns the receiver after the
call. -/
def Token.setText (this : Token) (s : Option String) : Token :=
  { this with _text := s }

/-- Source: `func (this *Token) getTokenSource() *TokenSource`. -/
def Token.getTokenSource (this : Token) : Exec (Option TokenSource) := do
  let source ← Exec.deref this.source
  pure source.tokenSource

/-- Source: `func (this *Token) getInputStream() *InputStream`. -/
def Token.getInputStream (this : Token) : Exec (Option InputStream) := do
  let source ← Exec.deref this.source
  pure source.inputStream

/-- Source: `func NewCommonToken(source, tokenType, channel, start, stop)`. The test
`t.source[0] != nil` reads the first component of the pair, the token source. -/
def NewCommonToken (source : Option TokenSourceInputStreamPair)
    (tokenType channel start stop : Int) : Exec CommonToken := do
  let t : CommonToken := {}
  let t : CommonToken := { t with source := source }
  let t : CommonToken := { t with tokenType := -1 }
  let t : CommonToken := { t with channel := channel }
  let t : CommonToken := { t with start := start }
  let t : CommonToken := { t with stop := stop }
  let t : CommonToken := { t with tokenIndex := -1 }
  let pair ← Exec.deref t.source
  match pair.tokenSource with
  | some tokenSource =>
    let line ← Exec.call Access.line tokenSource.line
    let t : CommonToken := { t with line := line }
    let column ← Exec.call Access.column tokenSource.column
    let t : CommonToken := { t with column := column }
    pure t
  | none =>
    let t : CommonToken := { t with column := -1 }
    pure t

/-- Source: `func (ct *CommonToken) clone()`. The last assignment, `t.text = ct.text`,
copies the text field (the source's own comment: the copy shares the `text` field of the
original). -/
def CommonToken.clone (ct : CommonToken) : Exec CommonToken := do
  let t ← NewCommonToken ct.source ct.tokenType ct.channel ct.start ct.stop
  let t : CommonToken := { t with tokenIndex := ct.tokenIndex }
  let t : CommonToken := { t with line := ct.line }
  let t : CommonToken := { t with column := ct.column }
  let t : CommonToken := { t with _text := ct._text }
  pure t

/-- Source: `func (this *CommonToken) text() string`. -/
def CommonToken.text (this : CommonToken) : Exec (Option String) := do
  match this._text with
  | some text => pure (some text)
  | none =>
    let input ← this.getInputStream
    match input with
    | none => pure none
    | some input =>
      let n ← Exec.call Access.size input.size
      if this.start < n ∧ this.stop < n then
        let s ← Exec.call (Access.getText this.start this.stop)
          (input.getText this.start this.stop)
        pure (some s)
      else
        pure (some "<EOF>")

/-- Source: `func (this *CommonToken) setText(text string)`; returns the receiver after the
call. -/
def CommonToken.setText (this : CommonToken) (text : Option String) : CommonToken :=
  { this with _text := text }

/-- Source: `func (this *CommonToken) toString() string`. `var txt = this.text` is the resolved
text of the token, the result of `text()`. -/
def CommonToken.toString (this : CommonToken) : Exec String := do
  let txt ← this.text
  let txt : String :=
    match txt with
    | some txt =>
      let txt := strings.Replace txt "\n" "" (-1)
      let txt := strings.Replace txt "\r" "" (-1)
      let txt := strings.Replace txt "\t" "" (-1)
      txt
    | none => "<no text>"
  let ch : String :=
    if this.channel > 0 then
      ",channel=" ++ intToString this.channel
    else
      ""
  pure ("[@" ++ intToString this.tokenIndex ++ "," ++ intToString this.start ++ ":" ++
    intToString this.stop ++ "='" ++ txt ++ "',<" ++ intToString this.tokenType ++ ">" ++
    ch ++ "," ++ intToString this.line ++ ":" ++ intToString this.column ++ "]")

/-! ## The rendering in the spec's words -/

/-- Decimal rendering: the digits of the absolute value, preceded by a minus sign when the
number is negative. -/
def specDecimal (i : Int) : String :=
  if i < 0 then "-" ++ Nat.repr i.natAbs else Nat.repr i.natAbs

/-- A character that the rendering keeps: neither newline, carriage return nor tab. -/
def keptChar (c : Char) : Bool := c != '\n' && c != '\r' && c != '\t'

/-- The text with every newline, carriage return and tab removed. -/
def specStrip (s : String) : String := ⟨s.data.filter keptChar⟩

/-- The embedded text `T`: the resolved text stripped, or `<no text>` for the absent
marker. -/
def specEmbeddedText : Option String → String
  | some s => specStrip s
  | none => "<no text>"

/-- The channel segment `C`: present only for a positive channel. -/
def specChannelSegment (channel : Int) : String :=
  if channel > 0 then ",channel=" ++ specDecimal channel else ""

/-- The rendering up to the quote that opens the embedded text. -/
def specOpen (t : CommonToken) : String :=
  "[@" ++ specDecimal t.tokenIndex ++ "," ++ specDecimal t.start ++ ":" ++
    specDecimal t.stop ++ "='"

/-- The token type segment, from the quote that closes the embedded text to the closing
`>`. -/
def specType (t : CommonToken) : String :=
  "',<" ++ specDecimal t.tokenType ++ ">"

/-- The position segment, from the comma before the line to the closing bracket. -/
def specTail (t : CommonToken) : String :=
  "," ++ specDecimal t.line ++ ":" ++ specDecimal t.column ++ "]"

/-- The canonical rendering of token `t` whose text resolves to `resolved`. -/
def specRender (t : CommonToken) (resolved : Option String) : String :=
  specOpen t ++ specEmbeddedText resolved ++ specType t ++ specChannelSegment t.channel ++
    specTail t

/-- Every character of the string is kept by the rendering. -/
def AllKept (s : String) : Prop := ∀ c ∈ s.data, keptChar c = true

instance : DecidablePred AllKept :=
  fun s => inferInstanceAs (Decidable (∀ c ∈ s.data, keptChar c = true))

/-! ## Sample inputs -/

/-- An input stream over the ten characters `abcdefgXYZ`. -/
def sampleStream : InputStream where
  size := 10
  getText start stop :=
    ⟨("abcdefgXYZ".data.drop start.toNat).take (stop - start + 1).toNat⟩

/-- A lexer positioned at line 1, column 0. -/
def sampleLexer : TokenSource where
  line := 1
  column := 0

/-- A source pair with both components present. -/
def samplePair : TokenSourceInputStreamPair where
  tokenSource := some sampleLexer
  inputStream := some sampleStream

/-- A token over `samplePair` spanning `abc`, of user type 7, at index 3. -/
def sampleToken : CommonToken where
  source := some samplePair
  tokenType := 7
  channel := 0
  start := 0
  stop := 2
  tokenIndex := 3
  line := 1
  column := 0

/-- The end-of-input token over `samplePair`: its span lies at the end of the stream. -/
def sampleEOFToken : CommonToken where
  source := some samplePair
  tokenType := TokenEOF
  start := 10
  stop := 9
  tokenIndex := 4
  line := 1
  column := 10

/-- A token without origin whose text is set explicitly and spans several lines. -/
def sampleMultilineToken : CommonToken where
  tokenType := 7
  start := 0
  stop := 4
  tokenIndex := 3
  line := 1
  column := 0
  _text := some "a\nb\tc"

/-- A token on the hidden channel. -/
def sampleHiddenToken : CommonToken where
  source := some samplePair
  tokenType := 7
  channel := TokenHiddenChannel
  start := 0
  stop := 2
  tokenIndex := 3
  line := 1
  column := 0

/-- A source pair with both components absent: the origin of a token without origin. -/
def emptyPair : TokenSourceInputStreamPair where
  tokenSource := none
  inputStream := none

/-- A token whose source is the empty pair and whose text is not set. -/
def sampleNoOriginToken : CommonToken where
  source := some emptyPair
  tokenType := 7
  start := 0
  stop := 2
  tokenIndex := 3
  line := 1
  column := -1

/-- A token over `samplePair` whose span is not tracked: `start` and `stop` are `-1`. -/
def sampleUntrackedToken : CommonToken where
  source := some samplePair
  tokenType := 7
  start := -1
  stop := -1
  tokenIndex := 3
  line := 1
  column := 0

/-- The zero value `CommonToken{Token{}}`: its source pair is `nil`. -/
def sampleZeroToken : CommonToken := {}

/-! ## Object store: tokens behind pointers -/

/-- The address of a token object; a `*CommonToken` is an address. -/
abbrev Addr := Nat

/-- The token objects allocated so far, by address. -/
structure Store where
  objects : List CommonToken

/-- Read the object behind a pointer; a pointer to no object faults. -/
def Store.load (σ : Store) (a : Addr) : Exec CommonToken :=
  Exec.deref σ.objects[a]?

/-- Source: `func (ct *CommonToken) clone()` through the pointer `ct`: the token built by
`NewCommonToken` is a new object, whose address is returned. -/
def Store.clone (σ : Store) (ct : Addr) : Exec (Addr × Store) := do
  let this ← σ.load ct
  let t ← this.clone
  pure (σ.objects.length, { objects := σ.objects ++ [t] })

/-- Source: `func (this *CommonToken) setText(text string)` through the pointer `this`:
the assignment writes the object in place. -/
def Store.setText (σ : Store) (this : Addr) (text : Option String) : Exec Store := do
  let t ← σ.load this
  pure { objects := σ.objects.set this (t.setText text) }

/-- Source: `func (this *CommonToken) text() string` through the pointer `this`, with the
store after the call: the body assigns to no field. -/
def Store.text (σ : Store) (this : Addr) : Exec (Option String × Store) := do
  let t ← σ.load this
  let r ← t.text
  pure (r, σ)

/-- Source: `func (this *CommonToken) toString() string` through the pointer `this`, with
the store after the call: the body assigns to local variables only. -/
def Store.toString (σ : Store) (this : Addr) : Exec (String × Store) := do
  let t ← σ.load this
  let s ← t.toString
  pure (s, σ)

/-- A store holding the sample token at address 0 and the end-of-input token at
address 1. -/
def sampleStore : Store where
  objects := [sampleToken, sampleEOFToken]

/-! ## Auxiliary lemmas -/

theorem intToString_eq_specDecimal (i : Int) : intToString i = specDecimal i := by
  cases i with
  | ofNat n =>
    have h : ¬ ((Int.ofNat n) < 0) := by simp
    simp [intToString, specDecimal, h]
    rfl
  | negSucc n =>
    have h : Int.negSucc n < 0 := Int.negSucc_lt_zero n
    simp [intToString, specDecimal, h]
    rfl

theorem replaceScan_single (c : Char) (s : List Char) :
    strings.replaceScan [c] [] s 0 none = s.filter (fun x => x != c) := by
  induction s with
  | nil => rfl
  | cons x xs ih =>
    by_cases hx : x = c
    · subst hx
      simp [strings.replaceScan, List.isPrefixOf, ih]
    · have hx2 : ¬ c = x := fun h => hx h.symm
      simp [strings.replaceScan, List.isPrefixOf, ih, hx, hx2]

theorem Replace_single (s : String) (c : Char) :
    strings.Replace s (String.singleton c) "" (-1) = ⟨s.data.filter (fun x => x != c)⟩ := by
  have h : (String.singleton c).data = [c] := rfl
  simp [strings.Replace, h, replaceScan_single]

theorem strip_eq_specStrip (s : String) :
    strings.Replace (strings.Replace (strings.Replace s "\n" "" (-1)) "\r" "" (-1)) "\t" "" (-1)
      = specStrip s := by
  have hn : ("\n" : String) = String.singleton '\n' := rfl
  have hr : ("\r" : String) = String.singleton '\r' := rfl
  have ht : ("\t" : String) = String.singleton '\t' := rfl
  rw [hn, hr, ht, Replace_single, Replace_single, Replace_single]
  simp only [specStrip, List.filter_filter]
  congr 2
  funext x
  simp [keptChar, Bool.and_comm, Bool.and_assoc]

theorem digitChar_kept (n : Nat) (h : n < 10) : keptChar (Nat.digitChar n) = true := by
  interval_cases n <;> decide

theorem toDigitsCore_kept (fuel : Nat) :
    ∀ (n : Nat) (acc : List Char), (∀ c ∈ acc, keptChar c = true) →
      ∀ c ∈ Nat.toDigitsCore 10 fuel n acc, keptChar c = true := by
  induction fuel with
  | zero => intro n acc hacc c hc; simpa [Nat.toDigitsCore] using hacc c hc
  | succ fuel ih =>
    intro n acc hacc c hc
    have hd : keptChar (Nat.digitChar (n % 10)) = true :=
      digitChar_kept _ (Nat.mod_lt _ (by decide))
    have hacc2 : ∀ c ∈ Nat.digitChar (n % 10) :: acc, keptChar c = true := by
      intro c hc
      rcases List.mem_cons.mp hc with h | h
      · rw [h]; exact hd
      · exact hacc c h
    unfold Nat.toDigitsCore at hc
    simp only at hc
    split at hc
    · exact hacc2 c hc
    · exact ih _ _ hacc2 c hc

theorem AllKept.append {a b : String} (ha : AllKept a) (hb : AllKept b) : AllKept (a ++ b) := by
  intro c hc
  simp only [String.data_append, List.mem_append] at hc
  rcases hc with h | h
  · exact ha c h
  · exact hb c h

theorem repr_kept (n : Nat) : AllKept (Nat.repr n) := by
  intro c hc
  exact toDigitsCore_kept _ _ [] (by simp) c
    (by simpa [Nat.repr, Nat.toDigits, List.asString] using hc)

theorem specDecimal_kept (i : Int) : AllKept (specDecimal i) := by
  unfold specDecimal
  split
  · exact AllKept.append (by intro c hc; have : c = '-' := by simpa using hc
                             rw [this]; decide) (repr_kept _)
  · exact repr_kept _

theorem specStrip_kept (s : String) : AllKept (specStrip s) := by
  intro c hc
  simp only [specStrip, List.mem_filter] at hc
  exact hc.2

theorem literal_kept (s : String) (h : s.data.all keptChar = true) : AllKept s := by
  intro c hc
  exact List.all_eq_true.mp h c hc

theorem specEmbeddedText_kept (r : Option String) : AllKept (specEmbeddedText r) := by
  cases r with
  | none => exact literal_kept _ (by decide)
  | some s => exact specStrip_kept s

theorem specChannelSegment_kept (channel : Int) : AllKept (specChannelSegment channel) := by
  unfold specChannelSegment
  split
  · exact AllKept.append (literal_kept _ (by decide)) (specDecimal_kept _)
  · exact literal_kept _ (by decide)

theorem specRender_kept (t : CommonToken) (r : Option String) : AllKept (specRender t r) := by
  have lit : ∀ s : String, s.data.all keptChar = true → AllKept s := literal_kept
  have dec := specDecimal_kept
  unfold specRender specOpen specType specTail
  repeat' apply AllKept.append
  all_goals first
    | exact dec _
    | exact specEmbeddedText_kept _
    | exact specChannelSegment_kept _
    | exact lit _ (by decide)

theorem toString_of_text (t : CommonToken) (r : Option String) (log : List Access)
    (h : t.text = Exec.ok r log) : t.toString = Exec.ok (specRender t r) log := by
  unfold CommonToken.toString
  simp only [bind, h, Exec.bind, Exec.ok, pure, List.append_nil]
  refine congrArg Except.ok (Prod.ext ?_ rfl)
  cases r with
  | none =>
    simp only [specRender, specOpen, specType, specTail, specChannelSegment, specEmbeddedText,
      intToString_eq_specDecimal, String.append_assoc]
  | some s =>
    simp only [specRender, specOpen, specType, specTail, specChannelSegment, specEmbeddedText,
      intToString_eq_specDecimal, String.append_assoc, strip_eq_specStrip]

theorem text_in_range (t : CommonToken) (p : TokenSourceInputStreamPair) (input : InputStream)
    (hsrc : t.source = some p) (hin : p.inputStream = some input) (htext : t._text = none)
    (h1 : t.start < input.size) (h2 : t.stop < input.size) :
    t.text = Exec.ok (some (input.getText t.start t.stop))
      [Access.size, Access.getText t.start t.stop] := by
  simp [CommonToken.text, Token.getInputStream, Exec.deref, bind, Exec.bind, pure, Exec.ok,
    Exec.call, hsrc, hin, htext, h1, h2]

theorem text_out_of_range (t : CommonToken) (p : TokenSourceInputStreamPair)
    (input : InputStream) (hsrc : t.source = some p) (hin : p.inputStream = some input)
    (htext : t._text = none) (h : input.size ≤ t.start ∨ input.size ≤ t.stop) :
    t.text = Exec.ok (some "<EOF>") [Access.size] := by
  have h' : ¬ (t.start < input.size ∧ t.stop < input.size) := by omega
  simp [CommonToken.text, Token.getInputStream, Exec.deref, bind, Exec.bind, pure, Exec.ok,
    Exec.call, hsrc, hin, htext, h']

theorem append_insert_ne (a s b : String) (hs : 0 < s.length) : a ++ s ++ b ≠ a ++ b := by
  intro h
  have := congrArg String.length h
  simp only [String.length_append] at this
  omega

theorem toString_of_fault (t : CommonToken) (f : Fault) (h : t.text = Exec.fault f) :
    t.toString = Exec.fault f := by
  unfold CommonToken.toString
  simp only [bind, h, Exec.bind, Exec.fault]

theorem NewCommonToken_lexer (tokenSource : TokenSource) (inputStream : Option InputStream)
    (tokenType channel start stop : Int) :
    NewCommonToken (some ⟨some tokenSource, inputStream⟩) tokenType channel start stop =
      Exec.ok
        { source := some ⟨some tokenSource, inputStream⟩, tokenType := -1, channel := channel,
          start := start, stop := stop, tokenIndex := -1, line := tokenSource.line,
          column := tokenSource.column, _text := none }
        [Access.line, Access.column] := by
  rfl

theorem NewCommonToken_no_lexer (inputStream : Option InputStream)
    (tokenType channel start stop : Int) :
    NewCommonToken (some ⟨none, inputStream⟩) tokenType channel start stop =
      Exec.ok
        { source := some ⟨none, inputStream⟩, tokenType := -1, channel := channel,
          start := start, stop := stop, tokenIndex := -1, line := 0,
          column := -1, _text := none }
        [] := by
  rfl

theorem NewCommonToken_returns (p : TokenSourceInputStreamPair)
    (tokenType channel start stop : Int) :
    ∃ line column log,
      NewCommonToken (some p) tokenType channel start stop =
        Exec.ok
          { source := some p, tokenType := -1, channel := channel, start := start,
            stop := stop, tokenIndex := -1, line := line, column := column, _text := none }
          log := by
  obtain ⟨tokenSource, inputStream⟩ := p
  cases tokenSource with
  | none => exact ⟨_, _, _, NewCommonToken_no_lexer inputStream tokenType channel start stop⟩
  | some ts => exact ⟨_, _, _, NewCommonToken_lexer ts inputStream tokenType channel start stop⟩

theorem clone_returns (ct : CommonToken) (p : TokenSourceInputStreamPair)
    (hsrc : ct.source = some p) :
    ∃ log, ct.clone = Exec.ok
      { source := some p, tokenType := -1, channel := ct.channel, start := ct.start,
        stop := ct.stop, tokenIndex := ct.tokenIndex, line := ct.line, column := ct.column,
        _text := ct._text } log := by
  obtain ⟨line, column, log, hnew⟩ :=
    NewCommonToken_returns p ct.tokenType ct.channel ct.start ct.stop
  refine ⟨log, ?_⟩
  unfold CommonToken.clone
  rw [hsrc]
  simp only [bind, hnew, Exec.bind, Exec.ok, pure, List.append_nil]

/-- C2: a token without override whose pair holds an input stream of size `n`, with
`0 <= start <= stop < n`, resolves its text by one call `getText(start, stop)` on that
stream, with exactly its own `start` and `stop`, and returns the answer. -/
theorem text_valid_span (t : CommonToken) (p : TokenSourceInputStreamPair)
    (input : InputStream) (hsrc : t.source = some p) (hin : p.inputStream = some input)
    (htext : t._text = none) (h0 : 0 ≤ t.start) (hle : t.start ≤ t.stop)
    (hlt : t.stop < input.size) :
    t.text = Exec.ok (some (input.getText t.start t.stop))
      [Access.size, Access.getText t.start t.stop] := by
  have _ := h0
  exact text_in_range t p input hsrc hin htext (by omega) hlt

/-- Witness of C2 on the sample token: span `[0, 2]` of the ten-character stream gives
`abc`. -/
theorem text_valid_span_witness :
    sampleToken.source = some samplePair ∧ samplePair.inputStream = some sampleStream ∧
    sampleToken._text = none ∧ (0 : Int) ≤ sampleToken.start ∧
    sampleToken.start ≤ sampleToken.stop ∧ sampleToken.stop < sampleStream.size ∧
    sampleStream.getText sampleToken.start sampleToken.stop = "abc" ∧
    sampleToken.text = Exec.ok (some (sampleStream.getText sampleToken.start sampleToken.stop))
      [Access.size, Access.getText sampleToken.start sampleToken.stop] :=
  ⟨rfl, rfl, rfl, by decide, by decide, by decide, by decide,
    text_valid_span sampleToken samplePair sampleStream rfl rfl rfl (by decide) (by decide)
      (by decide)⟩

/-- C3: a token without override whose pair holds an input stream of size `n`, with
`start >= n` or `stop >= n`, resolves to the literal `<EOF>`; the only access to the
stream is the read of `size`, `getText` is not called. -/
theorem text_eof (t : CommonToken) (p : TokenSourceInputStreamPair) (input : InputStream)
    (hsrc : t.source = some p) (hin : p.inputStream = some input) (htext : t._text = none)
    (h : t.start ≥ input.size ∨ t.stop ≥ input.size) :
    t.text = Exec.ok (some "<EOF>") [Access.size] :=
  text_out_of_range t p input hsrc hin htext h

/-- Witness of C3 on the end-of-input token of the sample stream. -/
theorem text_eof_witness :
    sampleEOFToken.source = some samplePair ∧ samplePair.inputStream = some sampleStream ∧
    sampleEOFToken._text = none ∧
    (sampleEOFToken.start ≥ sampleStream.size ∨ sampleEOFToken.stop ≥ sampleStream.size) ∧
    sampleEOFToken.text = Exec.ok (some "<EOF>") [Access.size] :=
  ⟨rfl, rfl, rfl, by decide,
    text_eof sampleEOFToken samplePair sampleStream rfl rfl rfl (by decide)⟩

/-! ## Canonical rendering -/

/-- C4: for every CommonToken, `toString()` is `text()` followed by the formatting of its
result `r` (a string or the absent marker) as
`[@tokenIndex,start:stop='T',<tokenType>C,line:column]`, with every integer in decimal
(a leading minus sign when negative), `T` the text `r` without its newlines, carriage
returns and tabs, or `<no text>` when `r` is the absent marker, and `C` equal to
`,channel=channel` when `channel > 0` and empty otherwise. The token with tokenIndex 3,
span `[0, 2]`, resolved text `abc`, type 7, channel 0, line 1 and column 0 renders as
`[@3,0:2='abc',<7>,1:0]`. -/
theorem toString_format :
    (∀ t : CommonToken,
      t.toString = Exec.bind t.text (fun r => Exec.ok
        ("[@" ++ specDecimal t.tokenIndex ++ "," ++ specDecimal t.start ++ ":" ++
          specDecimal t.stop ++ "='" ++ specEmbeddedText r ++ "',<" ++
          specDecimal t.tokenType ++ ">" ++ specChannelSegment t.channel ++ "," ++
          specDecimal t.line ++ ":" ++ specDecimal t.column ++ "]") [])) ∧
    (sampleToken.tokenIndex = 3 ∧ sampleToken.start = 0 ∧ sampleToken.stop = 2 ∧
      sampleToken.tokenType = 7 ∧ sampleToken.channel = 0 ∧ sampleToken.line = 1 ∧
      sampleToken.column = 0 ∧
      sampleToken.text = Exec.ok (some "abc") [Access.size, Access.getText 0 2] ∧
      sampleToken.toString =
        Exec.ok "[@3,0:2='abc',<7>,1:0]" [Access.size, Access.getText 0 2]) := by
  refine ⟨?_, rfl, rfl, rfl, rfl, rfl, rfl, rfl, rfl, rfl⟩
  intro t
  cases h : t.text with
  | error f =>
    rw [toString_of_fault t f h]
    rfl
  | ok v =>
    obtain ⟨r, log⟩ := v
    rw [toString_of_text t r log h]
    simp only [Exec.bind, Exec.ok, List.append_nil, specRender, specOpen, specType, specTail,
      String.append_assoc]

/-- C5: whenever `text()` resolves, whatever the text is, the string returned by
`toString()` contains no newline, no carriage return and no tab; and the embedded text
is the resolved text with exactly these characters filtered out, nothing being put in
their place. -/
theorem toString_single_line (t : CommonToken) (r : Option String) (log : List Access)
    (h : t.text = Exec.ok r log) :
    ∃ out : String, t.toString = Exec.ok out log ∧
      (∀ c ∈ out.data, c ≠ '\n' ∧ c ≠ '\r' ∧ c ≠ '\t') ∧
      (∀ s : String, r = some s →
        out = specOpen t ++
          String.mk (s.data.filter (fun c => c != '\n' && c != '\r' && c != '\t')) ++
          specType t ++ specChannelSegment t.channel ++ specTail t) := by
  refine ⟨specRender t r, toString_of_text t r log h, ?_, ?_⟩
  · intro c hc
    have hk := specRender_kept t r c hc
    simp only [keptChar, Bool.and_eq_true, bne_iff_ne] at hk
    exact ⟨hk.1.1, hk.1.2, hk.2⟩
  · intro s hs
    subst hs
    rfl

/-- Witness of C5: the text `a\nb\tc` is embedded as `abc`. -/
theorem toString_single_line_witness :
    sampleMultilineToken.text = Exec.ok (some "a\nb\tc") [] ∧
    sampleMultilineToken.toString = Exec.ok "[@3,0:4='abc',<7>,1:0]" [] ∧
    ∃ out : String, sampleMultilineToken.toString = Exec.ok out [] ∧
      (∀ c ∈ out.data, c ≠ '\n' ∧ c ≠ '\r' ∧ c ≠ '\t') ∧
      (∀ s : String, some "a\nb\tc" = some s →
        out = specOpen sampleMultilineToken ++
          String.mk (s.data.filter (fun c => c != '\n' && c != '\r' && c != '\t')) ++
          specType sampleMultilineToken ++ specChannelSegment sampleMultilineToken.channel ++
          specTail sampleMultilineToken) :=
  ⟨rfl, rfl, toString_single_line sampleMultilineToken (some "a\nb\tc") [] rfl⟩

/-- C6: whenever `text()` resolves, the rendering has `,channel=channel` directly
between the closing `>` of the token type and `,line:column]` exactly when
`channel > 0`, and has `,line:column]` directly after that `>` exactly when `channel` is
zero or negative. -/
theorem toString_channel_segment (t : CommonToken) (r : Option String) (log : List Access)
    (h : t.text = Exec.ok r log) :
    ∃ out : String, t.toString = Exec.ok out log ∧
      (out = specOpen t ++ specEmbeddedText r ++ specType t ++
          (",channel=" ++ specDecimal t.channel) ++ specTail t ↔ t.channel > 0) ∧
      (out = specOpen t ++ specEmbeddedText r ++ specType t ++ specTail t ↔
        ¬ t.channel > 0) := by
  refine ⟨specRender t r, toString_of_text t r log h, ?_, ?_⟩
  · by_cases hc : t.channel > 0
    · simp [specRender, specChannelSegment, hc]
    · have hne := append_insert_ne (specOpen t ++ specEmbeddedText r ++ specType t)
        (",channel=" ++ specDecimal t.channel) (specTail t)
        (by simp only [String.length_append]
            have : (",channel=" : String).length = 9 := by decide
            omega)
      simp only [specRender, specChannelSegment, hc, if_false, iff_false, String.append_empty]
      exact fun h => hne h.symm
  · by_cases hc : t.channel > 0
    · have hne := append_insert_ne (specOpen t ++ specEmbeddedText r ++ specType t)
        (",channel=" ++ specDecimal t.channel) (specTail t)
        (by simp only [String.length_append]
            have : (",channel=" : String).length = 9 := by decide
            omega)
      simp only [specRender, specChannelSegment, hc, if_true, not_true, iff_false]
      exact hne
    · simp [specRender, specChannelSegment, hc]

/-- Witness of C6: with channel 1 the closing `>` is followed by `,channel=1,1:0]`, with
channel 0 by `,1:0]`. -/
theorem toString_channel_segment_witness :
    sampleHiddenToken.text = Exec.ok (some "abc") [Access.size, Access.getText 0 2] ∧
    sampleHiddenToken.toString =
      Exec.ok "[@3,0:2='abc',<7>,channel=1,1:0]" [Access.size, Access.getText 0 2] ∧
    sampleToken.toString =
      Exec.ok "[@3,0:2='abc',<7>,1:0]" [Access.size, Access.getText 0 2] ∧
    ∃ out : String,
      sampleHiddenToken.toString = Exec.ok out [Access.size, Access.getText 0 2] ∧
      (out = specOpen sampleHiddenToken ++ specEmbeddedText (some "abc") ++
          specType sampleHiddenToken ++
          (",channel=" ++ specDecimal sampleHiddenToken.channel) ++
          specTail sampleHiddenToken ↔ sampleHiddenToken.channel > 0) ∧
      (out = specOpen sampleHiddenToken ++ specEmbeddedText (some "abc") ++
          specType sampleHiddenToken ++ specTail sampleHiddenToken ↔
        ¬ sampleHiddenToken.channel > 0) :=
  ⟨rfl, rfl, rfl,
    toString_channel_segment sampleHiddenToken (some "abc")
      [Access.size, Access.getText 0 2] rfl⟩

/-! ## Construction and copy -/

/-- C7 (evaluation of the code): `NewCommonToken` stores `-1` in `tokenType` whatever the
`tokenType` argument is; called with token type 7 on the sample pair it returns a token
of type `-1`, not 7. -/
theorem NewCommonToken_drops_tokenType :
    (∀ (p : TokenSourceInputStreamPair) (tokenType channel start stop : Int),
      ∃ t log, NewCommonToken (some p) tokenType channel start stop = Exec.ok t log ∧
        t.tokenType = -1) ∧
    (∃ t log, NewCommonToken (some samplePair) 7 0 0 2 = Exec.ok t log ∧
      t.tokenType = -1 ∧ t.tokenType ≠ 7) := by
  constructor
  · intro p tokenType channel start stop
    obtain ⟨line, column, log, h⟩ := NewCommonToken_returns p tokenType channel start stop
    exact ⟨_, log, h, rfl⟩
  · exact ⟨_, _, rfl, rfl, by decide⟩

/-- C8: for every source pair and all integer arguments, `NewCommonToken` returns a token
whose source is the given pair, whose channel, start and stop are the arguments, whose
tokenIndex is `-1` and which has no explicit text. -/
theorem NewCommonToken_stores (p : TokenSourceInputStreamPair)
    (tokenType channel start stop : Int) :
    ∃ t log, NewCommonToken (some p) tokenType channel start stop = Exec.ok t log ∧
      t.source = some p ∧ t.channel = channel ∧ t.start = start ∧ t.stop = stop ∧
      t.tokenIndex = -1 ∧ t._text = none := by
  obtain ⟨line, column, log, h⟩ := NewCommonToken_returns p tokenType channel start stop
  exact ⟨_, log, h, rfl, rfl, rfl, rfl, rfl, rfl⟩

/-- C9: when the pair's token source is present, `NewCommonToken` calls its `line()` and
`column()` and the new token's line and column are the answers; when it is absent, no
collaborator is accessed and the new token has column `-1` and line `0`. -/
theorem NewCommonToken_position (inputStream : Option InputStream)
    (tokenType channel start stop : Int) :
    (∀ tokenSource : TokenSource,
      ∃ t, NewCommonToken (some ⟨some tokenSource, inputStream⟩) tokenType channel start stop
          = Exec.ok t [Access.line, Access.column] ∧
        t.line = tokenSource.line ∧ t.column = tokenSource.column) ∧
    (∃ t, NewCommonToken (some ⟨none, inputStream⟩) tokenType channel start stop
          = Exec.ok t [] ∧
        t.column = -1 ∧ t.line = 0) :=
  ⟨fun ts => ⟨_, NewCommonToken_lexer ts inputStream tokenType channel start stop, rfl, rfl⟩,
    ⟨_, NewCommonToken_no_lexer inputStream tokenType channel start stop, rfl, rfl⟩⟩

/-- C10 (evaluation of the code): the copy returned by `clone()` has token type `-1`
whatever the type of the original is, since it is built by `NewCommonToken` and the type
is not copied afterwards; the clone of the sample token, of type 7, has type `-1`. -/
theorem clone_drops_tokenType :
    (∀ (ct : CommonToken) (p : TokenSourceInputStreamPair),
      ∃ t log, CommonToken.clone { ct with source := some p } = Exec.ok t log ∧
        t.tokenType = -1) ∧
    (sampleToken.tokenType = 7 ∧
      ∃ t log, sampleToken.clone = Exec.ok t log ∧ t.tokenType = -1 ∧
        t.tokenType ≠ sampleToken.tokenType) := by
  constructor
  · intro ct p
    obtain ⟨log, h⟩ := clone_returns { ct with source := some p } p rfl
    exact ⟨_, log, h, rfl⟩
  · exact ⟨rfl, _, _, rfl, rfl, by decide⟩

/-! ## Auxiliary lemmas on text resolution and the object store -/

theorem text_congr (a b : CommonToken) (htext : a._text = b._text) (hsrc : a.source = b.source)
    (hstart : a.start = b.start) (hstop : a.stop = b.stop) : a.text = b.text := by
  unfold CommonToken.text Token.getInputStream
  rw [htext, hsrc, hstart, hstop]

theorem text_override (t : CommonToken) (s : String) (htext : t._text = some s) :
    t.text = Exec.ok (some s) [] := by
  unfold CommonToken.text
  rw [htext]
  rfl

theorem text_no_stream (t : CommonToken) (p : TokenSourceInputStreamPair)
    (hsrc : t.source = some p) (hin : p.inputStream = none) (htext : t._text = none) :
    t.text = Exec.ok none [] := by
  simp [CommonToken.text, Token.getInputStream, Exec.deref, bind, Exec.bind, pure, Exec.ok,
    hsrc, hin, htext]

theorem text_no_source (t : CommonToken) (hsrc : t.source = none) (htext : t._text = none) :
    t.text = Exec.fault Fault.nilDereference := by
  simp [CommonToken.text, Token.getInputStream, Exec.deref, bind, Exec.bind, Exec.fault,
    hsrc, htext]

theorem text_returns (t : CommonToken) (p : TokenSourceInputStreamPair)
    (hsrc : t.source = some p) :
    ∃ r log, t.text = Exec.ok r log ∧ (r = none ↔ t._text = none ∧ p.inputStream = none) := by
  cases htext : t._text with
  | some s => exact ⟨some s, [], text_override t s htext, by simp⟩
  | none =>
    cases hin : p.inputStream with
    | none => exact ⟨none, [], text_no_stream t p hsrc hin htext, by simp⟩
    | some input =>
      by_cases h : t.start < input.size ∧ t.stop < input.size
      · exact ⟨_, _, text_in_range t p input hsrc hin htext h.1 h.2, by simp⟩
      · exact ⟨_, _, text_out_of_range t p input hsrc hin htext (by omega), by simp⟩

theorem Exec.ok_value_eq {α : Type} {a b : α} {l m : List Access}
    (h : Exec.ok a l = Exec.ok b m) : a = b :=
  (Prod.mk.inj (Except.ok.inj h)).1

theorem Exec.ok_log_eq {α : Type} {a b : α} {l m : List Access}
    (h : Exec.ok a l = Exec.ok b m) : l = m :=
  (Prod.mk.inj (Except.ok.inj h)).2

theorem Exec.ok_ne_fault {α : Type} (a : α) (l : List Access) (f : Fault) :
    Exec.ok a l ≠ Exec.fault f :=
  fun h => Except.noConfusion h

theorem Store.load_at (σ : Store) (a : Addr) (t : CommonToken)
    (ht : σ.objects[a]? = some t) : σ.load a = Exec.ok t [] := by
  unfold Store.load
  rw [ht]
  rfl

theorem Store.text_at (σ : Store) (a : Addr) (t : CommonToken) (r : Option String)
    (log : List Access) (ht : σ.objects[a]? = some t) (hr : t.text = Exec.ok r log) :
    Store.text σ a = Exec.ok (r, σ) log := by
  unfold Store.text
  simp only [bind, Store.load_at σ a t ht, hr, Exec.bind, Exec.ok, pure, List.append_nil,
    List.nil_append]

theorem Store.toString_at (σ : Store) (a : Addr) (t : CommonToken) (r : Option String)
    (log : List Access) (ht : σ.objects[a]? = some t) (hr : t.text = Exec.ok r log) :
    Store.toString σ a = Exec.ok (specRender t r, σ) log := by
  unfold Store.toString
  simp only [bind, Store.load_at σ a t ht, toString_of_text t r log hr, Exec.bind, Exec.ok,
    pure, List.append_nil, List.nil_append]

theorem Store.setText_at (σ : Store) (a : Addr) (t : CommonToken) (text : Option String)
    (ht : σ.objects[a]? = some t) :
    Store.setText σ a text = Exec.ok { objects := σ.objects.set a (t.setText text) } [] := by
  unfold Store.setText
  simp only [bind, Store.load_at σ a t ht, Exec.bind, Exec.ok, pure, List.append_nil]

theorem Store.clone_at (σ : Store) (a : Addr) (t c : CommonToken) (log : List Access)
    (ht : σ.objects[a]? = some t) (hc : t.clone = Exec.ok c log) :
    Store.clone σ a = Exec.ok (σ.objects.length, { objects := σ.objects ++ [c] }) log := by
  unfold Store.clone
  simp only [bind, Store.load_at σ a t ht, hc, Exec.bind, Exec.ok, pure, List.append_nil,
    List.nil_append]

theorem getElem?_lt_of_some {α : Type} (l : List α) (a : Nat) (x : α) (h : l[a]? = some x) :
    a < l.length := by
  by_contra hge
  have hnone : l[a]? = none := List.getElem?_eq_none (Nat.le_of_not_lt hge)
  rw [hnone] at h
  exact Option.noConfusion h

theorem clone_resolves (ct : CommonToken) (p : TokenSourceInputStreamPair)
    (hsrc : ct.source = some p) :
    ∃ t log, ct.clone = Exec.ok t log ∧ t.text = ct.text := by
  obtain ⟨log, h⟩ := clone_returns ct p hsrc
  exact ⟨_, log, h, text_congr _ ct rfl hsrc.symm rfl rfl⟩

theorem text_log_getText (t : CommonToken) (r : Option String) (log : List Access)
    (a b : Int) (h : t.text = Exec.ok r log) (hmem : Access.getText a b ∈ log) :
    a = t.start ∧ b = t.stop ∧ t._text = none ∧
      ∃ p input, t.source = some p ∧ p.inputStream = some input ∧
        a < input.size ∧ b < input.size ∧ r = some (input.getText a b) := by
  cases htext : t._text with
  | some s =>
    have hl := Exec.ok_log_eq ((text_override t s htext).symm.trans h)
    rw [← hl] at hmem
    exact absurd hmem (by simp)
  | none =>
    cases hsrc : t.source with
    | none =>
      exact absurd ((text_no_source t hsrc htext).symm.trans h).symm (Exec.ok_ne_fault _ _ _)
    | some p =>
      cases hin : p.inputStream with
      | none =>
        have hl := Exec.ok_log_eq ((text_no_stream t p hsrc hin htext).symm.trans h)
        rw [← hl] at hmem
        exact absurd hmem (by simp)
      | some input =>
        by_cases hr : t.start < input.size ∧ t.stop < input.size
        · have heq := (text_in_range t p input hsrc hin htext hr.1 hr.2).symm.trans h
          have hl := Exec.ok_log_eq heq
          have hv := Exec.ok_value_eq heq
          rw [← hl] at hmem
          simp only [List.mem_cons, List.mem_singleton, Access.getText.injEq, false_or,
            List.not_mem_nil, or_false, reduceCtorEq] at hmem
          obtain ⟨ha, hb⟩ := hmem
          subst ha hb
          exact ⟨rfl, rfl, rfl, p, input, rfl, hin, hr.1, hr.2, hv.symm⟩
        · have hl := Exec.ok_log_eq
            ((text_out_of_range t p input hsrc hin htext (by omega)).symm.trans h)
          rw [← hl] at hmem
          exact absurd hmem (by simp)

/-! ## Copy -/

/-- C11: for every token with a source pair, `clone()` returns a token with the same source
pair, channel, start, stop, tokenIndex, line and column as the original, whatever the
current `line()` and `column()` of the token source are. -/
theorem clone_preserves (ct : CommonToken) (p : TokenSourceInputStreamPair)
    (hsrc : ct.source = some p) :
    ∃ t log, ct.clone = Exec.ok t log ∧ t.source = ct.source ∧ t.channel = ct.channel ∧
      t.start = ct.start ∧ t.stop = ct.stop ∧ t.tokenIndex = ct.tokenIndex ∧
      t.line = ct.line ∧ t.column = ct.column := by
  obtain ⟨log, h⟩ := clone_returns ct p hsrc
  exact ⟨_, log, h, hsrc.symm, rfl, rfl, rfl, rfl, rfl, rfl⟩

/-- Witness of C11: the end-of-input token has column 10 while its lexer stands at
column 0; its clone keeps column 10. -/
theorem clone_preserves_witness :
    sampleEOFToken.source = some samplePair ∧
    samplePair.tokenSource = some sampleLexer ∧ sampleEOFToken.column ≠ sampleLexer.column ∧
    ∃ t log, sampleEOFToken.clone = Exec.ok t log ∧ t.source = sampleEOFToken.source ∧
      t.channel = sampleEOFToken.channel ∧ t.start = sampleEOFToken.start ∧
      t.stop = sampleEOFToken.stop ∧ t.tokenIndex = sampleEOFToken.tokenIndex ∧
      t.line = sampleEOFToken.line ∧ t.column = sampleEOFToken.column :=
  ⟨rfl, rfl, by decide, clone_preserves sampleEOFToken samplePair rfl⟩

/-- C12: for every token with a source pair, `clone()` returns a token whose `text()` is
the `text()` of the original: same result (override, stream text, `<EOF>` or the absent
marker) by the same accesses to the stream. -/
theorem clone_text (ct : CommonToken) (p : TokenSourceInputStreamPair)
    (hsrc : ct.source = some p) :
    ∃ t log, ct.clone = Exec.ok t log ∧ t.text = ct.text := by
  obtain ⟨log, h⟩ := clone_returns ct p hsrc
  exact ⟨_, log, h, text_congr _ ct rfl hsrc.symm rfl rfl⟩

/-- Witness of C12: the clone of the sample token resolves to `abc` like the original. -/
theorem clone_text_witness :
    sampleToken.source = some samplePair ∧
    sampleToken.text = Exec.ok (some "abc") [Access.size, Access.getText 0 2] ∧
    ∃ t log, sampleToken.clone = Exec.ok t log ∧ t.text = sampleToken.text :=
  ⟨rfl, rfl, clone_text sampleToken samplePair rfl⟩

/-- C13: let `c` be the clone of the token object at address `a` (a token with a source
pair). The clone is a new object and resolves to the same text as the original. After
`c.setText(s)` the original still resolves to its former text, and after `t.setText(s)`
on the original the clone still resolves to its former text. -/
theorem clone_setText_independent (σ : Store) (a : Addr) (t : CommonToken)
    (p : TokenSourceInputStreamPair) (s : String)
    (ht : σ.objects[a]? = some t) (hsrc : t.source = some p) :
    ∃ (c : Addr) (σ₁ : Store) (log : List Access) (r : Option String) (l : List Access),
      Store.clone σ a = Exec.ok (c, σ₁) log ∧ c ≠ a ∧
      Store.text σ₁ a = Exec.ok (r, σ₁) l ∧ Store.text σ₁ c = Exec.ok (r, σ₁) l ∧
      (∃ σ₂, Store.setText σ₁ c (some s) = Exec.ok σ₂ [] ∧
        Store.text σ₂ c = Exec.ok (some s, σ₂) [] ∧ Store.text σ₂ a = Exec.ok (r, σ₂) l) ∧
      (∃ σ₃, Store.setText σ₁ a (some s) = Exec.ok σ₃ [] ∧
        Store.text σ₃ a = Exec.ok (some s, σ₃) [] ∧ Store.text σ₃ c = Exec.ok (r, σ₃) l) := by
  obtain ⟨c, log, hclone, hct⟩ := clone_resolves t p hsrc
  obtain ⟨r, l, hr, _⟩ := text_returns t p hsrc
  have hlt : a < σ.objects.length := getElem?_lt_of_some _ _ _ ht
  have hne : σ.objects.length ≠ a := Nat.ne_of_gt hlt
  have hcr : c.text = Exec.ok r l := hct.trans hr
  have h1a : (σ.objects ++ [c])[a]? = some t := by
    rw [List.getElem?_append_left hlt]; exact ht
  have h1c : (σ.objects ++ [c])[σ.objects.length]? = some c := by
    simp
  refine ⟨σ.objects.length, { objects := σ.objects ++ [c] }, log, r, l,
    Store.clone_at σ a t c log ht hclone, hne,
    Store.text_at _ a t r l h1a hr, Store.text_at _ _ c r l h1c hcr, ?_, ?_⟩
  · refine ⟨_, Store.setText_at _ _ c (some s) h1c, ?_, ?_⟩
    · apply Store.text_at _ _ (c.setText (some s)) _ _ _ (text_override _ s rfl)
      simp
    · apply Store.text_at _ _ t r l _ hr
      show ((σ.objects ++ [c]).set σ.objects.length (c.setText (some s)))[a]? = some t
      rw [List.getElem?_set_ne hne]; exact h1a
  · refine ⟨_, Store.setText_at _ _ t (some s) h1a, ?_, ?_⟩
    · apply Store.text_at _ _ (t.setText (some s)) _ _ _ (text_override _ s rfl)
      show ((σ.objects ++ [c]).set a (t.setText (some s)))[a]? = some (t.setText (some s))
      have hlt2 : a < (σ.objects ++ [c]).length := by
        rw [List.length_append]
        exact Nat.lt_add_right _ hlt
      rw [List.getElem?_set_self hlt2]
    · apply Store.text_at _ _ c r l _ hcr
      show ((σ.objects ++ [c]).set a (t.setText (some s)))[σ.objects.length]? = some c
      rw [List.getElem?_set_ne (Ne.symm hne)]; exact h1c

/-- Witness of C13 on the sample store: the clone of the sample token at address 0 is the
new object at address 2; both resolve to `abc` whichever of the two gets a new text. -/
theorem clone_setText_independent_witness :
    sampleStore.objects[0]? = some sampleToken ∧ sampleToken.source = some samplePair ∧
    ∃ (c : Addr) (σ₁ : Store) (log : List Access) (r : Option String) (l : List Access),
      Store.clone sampleStore 0 = Exec.ok (c, σ₁) log ∧ c ≠ 0 ∧
      Store.text σ₁ 0 = Exec.ok (r, σ₁) l ∧ Store.text σ₁ c = Exec.ok (r, σ₁) l ∧
      (∃ σ₂, Store.setText σ₁ c (some "xyz") = Exec.ok σ₂ [] ∧
        Store.text σ₂ c = Exec.ok (some "xyz", σ₂) [] ∧
        Store.text σ₂ 0 = Exec.ok (r, σ₂) l) ∧
      (∃ σ₃, Store.setText σ₁ 0 (some "xyz") = Exec.ok σ₃ [] ∧
        Store.text σ₃ 0 = Exec.ok (some "xyz", σ₃) [] ∧
        Store.text σ₃ c = Exec.ok (r, σ₃) l) :=
  ⟨rfl, rfl, clone_setText_independent sampleStore 0 sampleToken samplePair "xyz" rfl rfl⟩

/-! ## Absent text, constants, end-to-end scenario -/

/-- C15: the constants have the values `TokenEOF = -1`, `TokenEpsilon = -2`,
`TokenInvalidType = 0`, `TokenMinUserTokenType = 1`, `TokenDefaultChannel = 0`,
`TokenHiddenChannel = 1`; the three reserved types are below `TokenMinUserTokenType` and
pairwise distinct. -/
theorem token_constants :
    TokenEOF = -1 ∧ TokenEpsilon = -2 ∧ TokenInvalidType = 0 ∧ TokenMinUserTokenType = 1 ∧
    TokenDefaultChannel = 0 ∧ TokenHiddenChannel = 1 ∧
    TokenInvalidType < TokenMinUserTokenType ∧ TokenEOF < TokenMinUserTokenType ∧
    TokenEpsilon < TokenMinUserTokenType ∧
    TokenInvalidType ≠ TokenEOF ∧ TokenInvalidType ≠ TokenEpsilon ∧
    TokenEOF ≠ TokenEpsilon := by
  decide

/-- C16 (evaluation of the code): the token built by `NewCommonToken(source, 7, 0, 0, 2)`
over the sample pair (lexer at line 1, column 0; stream of size 10 starting with `abc`),
with tokenIndex then set to 3, has text `abc` but renders as `[@3,0:2='abc',<-1>,1:0]`,
not as `[@3,0:2='abc',<7>,1:0]`. -/
theorem end_to_end_rendering :
    sampleLexer.line = 1 ∧ sampleLexer.column = 0 ∧ sampleStream.size = 10 ∧
    sampleStream.getText 0 2 = "abc" ∧
    ∃ t log, NewCommonToken (some samplePair) 7 0 0 2 = Exec.ok t log ∧
      CommonToken.text { t with tokenIndex := 3 } =
        Exec.ok (some "abc") [Access.size, Access.getText 0 2] ∧
      CommonToken.toString { t with tokenIndex := 3 } =
        Exec.ok "[@3,0:2='abc',<-1>,1:0]" [Access.size, Access.getText 0 2] ∧
      CommonToken.toString { t with tokenIndex := 3 } ≠
        Exec.ok "[@3,0:2='abc',<7>,1:0]" [Access.size, Access.getText 0 2] := by
  refine ⟨rfl, rfl, rfl, by decide,
    { source := some samplePair, tokenType := -1, channel := 0, start := 0, stop := 2,
      tokenIndex := -1, line := 1, column := 0 },
    [Access.line, Access.column], rfl, rfl, rfl, ?_⟩
  intro h
  have hs : ("[@3,0:2='abc',<-1>,1:0]" : String) = "[@3,0:2='abc',<7>,1:0]" :=
    Exec.ok_value_eq (Eq.trans (Eq.symm rfl) h)
  exact absurd hs (by decide)

/-! ## Safety of text resolution and of the accessors -/

/-- C17 as stated fails: the untracked token (`start = stop = -1`, no override) over the
sample stream of size 10 calls `getText(-1, -1)` and returns its answer `a`, not `<EOF>`;
so the statement that a negative offset yields `<EOF>` without a call is false. -/
theorem text_untracked_calls_getText :
    (sampleUntrackedToken._text = none ∧ sampleUntrackedToken.source = some samplePair ∧
      samplePair.inputStream = some sampleStream ∧ 0 < sampleStream.size ∧
      sampleUntrackedToken.start = -1 ∧ sampleUntrackedToken.stop = -1 ∧
      sampleUntrackedToken.text =
        Exec.ok (some "a") [Access.size, Access.getText (-1) (-1)]) ∧
    ¬ (∀ (t : CommonToken) (p : TokenSourceInputStreamPair) (input : InputStream),
        t.source = some p → p.inputStream = some input → t._text = none →
        0 < input.size → (t.start < 0 ∨ t.stop < 0) →
        t.text = Exec.ok (some "<EOF>") [Access.size]) ∧
    ¬ (∀ (t : CommonToken) (p : TokenSourceInputStreamPair) (input : InputStream)
        (r : Option String) (log : List Access) (a b : Int),
        t.source = some p → p.inputStream = some input → t.text = Exec.ok r log →
        Access.getText a b ∈ log → 0 ≤ a ∧ 0 ≤ b ∧ a < input.size ∧ b < input.size) := by
  refine ⟨⟨rfl, rfl, rfl, by decide, rfl, rfl, rfl⟩, ?_, ?_⟩
  · intro h
    have h1 := h sampleUntrackedToken samplePair sampleStream rfl rfl rfl (by decide)
      (Or.inl (by decide))
    have h2 : sampleUntrackedToken.text =
        Exec.ok (some "a") [Access.size, Access.getText (-1) (-1)] := rfl
    have h3 := Exec.ok_log_eq (h2.symm.trans h1)
    exact absurd h3 (by decide)
  · intro h
    have h1 := h sampleUntrackedToken samplePair sampleStream (some "a")
      [Access.size, Access.getText (-1) (-1)] (-1) (-1) rfl rfl rfl (by simp)
    exact absurd h1.1 (by decide)

/-- C17 amended: whenever `text()` calls `getText(a, b)`, the token has no override, `a`
and `b` are its own `start` and `stop`, both are below the size of the stream, and the
answer of the call is the result; no lower bound is checked. A token without override over
a stream of size `n` with `start < n` and `stop < n`, negative offsets included, calls
`getText(start, stop)`; only `start >= n` or `stop >= n` gives `<EOF>` without a call. -/
theorem text_getText_arguments (t : CommonToken) (r : Option String) (log : List Access)
    (a b : Int) (h : t.text = Exec.ok r log) (hmem : Access.getText a b ∈ log) :
    (a = t.start ∧ b = t.stop ∧ t._text = none ∧
      ∃ p input, t.source = some p ∧ p.inputStream = some input ∧
        a < input.size ∧ b < input.size ∧ r = some (input.getText a b)) ∧
    (∀ (u : CommonToken) (p : TokenSourceInputStreamPair) (input : InputStream),
      u.source = some p → p.inputStream = some input → u._text = none →
      (u.start < input.size ∧ u.stop < input.size →
        u.text = Exec.ok (some (input.getText u.start u.stop))
          [Access.size, Access.getText u.start u.stop]) ∧
      (u.start ≥ input.size ∨ u.stop ≥ input.size →
        u.text = Exec.ok (some "<EOF>") [Access.size])) :=
  ⟨text_log_getText t r log a b h hmem,
    fun u p input hsrc hin htext =>
      ⟨fun hlt => text_in_range u p input hsrc hin htext hlt.1 hlt.2,
        fun hge => text_out_of_range u p input hsrc hin htext hge⟩⟩

/-- Witness of C17 amended: the untracked token calls `getText(-1, -1)`; both arguments
are its own offsets and lie below the size 10 of the stream. -/
theorem text_getText_arguments_witness :
    sampleUntrackedToken.text =
      Exec.ok (some "a") [Access.size, Access.getText (-1) (-1)] ∧
    Access.getText (-1) (-1) ∈ [Access.size, Access.getText (-1) (-1)] ∧
    ((-1 : Int) = sampleUntrackedToken.start ∧ (-1 : Int) = sampleUntrackedToken.stop ∧
      sampleUntrackedToken._text = none ∧
      ∃ p input, sampleUntrackedToken.source = some p ∧ p.inputStream = some input ∧
        -1 < input.size ∧ -1 < input.size ∧ some "a" = some (input.getText (-1) (-1))) :=
  ⟨rfl, by simp,
    (text_getText_arguments sampleUntrackedToken (some "a")
      [Access.size, Access.getText (-1) (-1)] (-1) (-1) rfl (by simp)).1⟩

/-- C18 as stated fails: on the zero-value token, whose source pair is `nil` and whose
text is not set, `getTokenSource()`, `getInputStream()` and `text()` all fault on the
dereference of the pair. -/
theorem nil_source_faults :
    sampleZeroToken.source = none ∧ sampleZeroToken._text = none ∧
    sampleZeroToken.getTokenSource = Exec.fault Fault.nilDereference ∧
    sampleZeroToken.getInputStream = Exec.fault Fault.nilDereference ∧
    sampleZeroToken.text = Exec.fault Fault.nilDereference ∧
    ¬ (∀ t : CommonToken, t.source = none → t._text = none →
        t.getTokenSource = Exec.ok none [] ∧ t.getInputStream = Exec.ok none [] ∧
        t.text = Exec.ok none []) := by
  refine ⟨rfl, rfl, rfl, rfl, rfl, ?_⟩
  intro h
  have h1 := (h sampleZeroToken rfl rfl).2.2
  have h2 : sampleZeroToken.text = Exec.fault Fault.nilDereference := rfl
  exact Exec.ok_ne_fault _ _ _ (h1.symm.trans h2)

/-- C18 amended: for every token whose source pair is present (the empty pair included),
`getTokenSource()` and `getInputStream()` return the components of the pair without
fault and without access to a collaborator, and `text()` returns without fault: the
absent marker when the token has no text set and the pair has no input stream. A token
with a text set returns it whatever its source pair is. -/
theorem accessors_present_pair (t : CommonToken) (p : TokenSourceInputStreamPair)
    (hsrc : t.source = some p) :
    t.getTokenSource = Exec.ok p.tokenSource [] ∧
    t.getInputStream = Exec.ok p.inputStream [] ∧
    (∃ r log, t.text = Exec.ok r log) ∧
    (t._text = none → p.inputStream = none → t.text = Exec.ok none []) ∧
    (∀ (u : CommonToken) (s : String), u._text = some s → u.text = Exec.ok (some s) []) := by
  refine ⟨?_, ?_, ?_, ?_, ?_⟩
  · simp [Token.getTokenSource, Exec.deref, bind, Exec.bind, pure, Exec.ok, hsrc]
  · simp [Token.getInputStream, Exec.deref, bind, Exec.bind, pure, Exec.ok, hsrc]
  · obtain ⟨r, log, h, _⟩ := text_returns t p hsrc
    exact ⟨r, log, h⟩
  · exact fun htext hin => text_no_stream t p hsrc hin htext
  · exact fun u s hu => text_override u s hu

/-- Witness of C18 amended: the token over the empty pair has absent token source, absent
input stream and absent text. -/
theorem accessors_present_pair_witness :
    sampleNoOriginToken.source = some emptyPair ∧
    sampleNoOriginToken.getTokenSource = Exec.ok none [] ∧
    sampleNoOriginToken.getInputStream = Exec.ok none [] ∧
    sampleNoOriginToken.text = Exec.ok none [] ∧
    (∃ r log, sampleNoOriginToken.text = Exec.ok r log) :=
  ⟨rfl, rfl, rfl, rfl, (accessors_present_pair sampleNoOriginToken emptyPair rfl).2.2.1⟩

/-! ## Construction without the stream, and frame properties -/

/-- C19: two calls of `NewCommonToken` with the same token source and the same integer
arguments but different input streams (any two, absent ones included) return tokens that
agree on tokenType, channel, start, stop, tokenIndex, line, column and text field, with the
same log of accesses, which contains neither `size` nor any `getText`. -/
theorem NewCommonToken_ignores_stream (tokenSource : Option TokenSource)
    (input₁ input₂ : Option InputStream) (tokenType channel start stop : Int) :
    ∃ t₁ t₂ log,
      NewCommonToken (some ⟨tokenSource, input₁⟩) tokenType channel start stop
        = Exec.ok t₁ log ∧
      NewCommonToken (some ⟨tokenSource, input₂⟩) tokenType channel start stop
        = Exec.ok t₂ log ∧
      t₁.tokenType = t₂.tokenType ∧ t₁.channel = t₂.channel ∧ t₁.start = t₂.start ∧
      t₁.stop = t₂.stop ∧ t₁.tokenIndex = t₂.tokenIndex ∧ t₁.line = t₂.line ∧
      t₁.column = t₂.column ∧ t₁._text = t₂._text ∧
      Access.size ∉ log ∧ ∀ a b, Access.getText a b ∉ log := by
  cases tokenSource with
  | none =>
    exact ⟨_, _, [], NewCommonToken_no_lexer input₁ tokenType channel start stop,
      NewCommonToken_no_lexer input₂ tokenType channel start stop,
      rfl, rfl, rfl, rfl, rfl, rfl, rfl, rfl, by simp, by simp⟩
  | some ts =>
    exact ⟨_, _, [Access.line, Access.column],
      NewCommonToken_lexer ts input₁ tokenType channel start stop,
      NewCommonToken_lexer ts input₂ tokenType channel start stop,
      rfl, rfl, rfl, rfl, rfl, rfl, rfl, rfl, by simp, by simp⟩

/-- C20: `setText` changes the text field only: source, tokenType, channel, start, stop,
tokenIndex, line and column of the token are the same after the call, and no other object
of the store is written. `text()` and `toString()` return with the store unchanged. -/
theorem setText_text_toString_frame (σ : Store) (a : Addr) (t : CommonToken)
    (text r : Option String) (log : List Access)
    (ht : σ.objects[a]? = some t) (hr : t.text = Exec.ok r log) :
    (∃ (σ₁ : Store) (t₁ : CommonToken),
      Store.setText σ a text = Exec.ok σ₁ [] ∧ σ₁.objects[a]? = some t₁ ∧
      t₁ = t.setText text ∧ t₁._text = text ∧
      t₁.source = t.source ∧ t₁.tokenType = t.tokenType ∧ t₁.channel = t.channel ∧
      t₁.start = t.start ∧ t₁.stop = t.stop ∧ t₁.tokenIndex = t.tokenIndex ∧
      t₁.line = t.line ∧ t₁.column = t.column ∧
      ∀ b : Addr, b ≠ a → σ₁.objects[b]? = σ.objects[b]?) ∧
    Store.text σ a = Exec.ok (r, σ) log ∧
    (∃ out : String, Store.toString σ a = Exec.ok (out, σ) log) := by
  have hlt : a < σ.objects.length := getElem?_lt_of_some _ _ _ ht
  refine ⟨⟨_, t.setText text, Store.setText_at σ a t text ht, ?_, rfl, rfl, rfl, rfl, rfl,
    rfl, rfl, rfl, rfl, rfl, ?_⟩, Store.text_at σ a t r log ht hr,
    ⟨_, Store.toString_at σ a t r log ht hr⟩⟩
  · show (σ.objects.set a (t.setText text))[a]? = some (t.setText text)
    rw [List.getElem?_set_self hlt]
  · intro b hb
    show (σ.objects.set a (t.setText text))[b]? = σ.objects[b]?
    rw [List.getElem?_set_ne (Ne.symm hb)]

/-- Witness of C20 on the sample store, for the sample token at address 0. -/
theorem setText_text_toString_frame_witness :
    sampleStore.objects[0]? = some sampleToken ∧
    sampleToken.text = Exec.ok (some "abc") [Access.size, Access.getText 0 2] ∧
    Store.text sampleStore 0 =
      Exec.ok (some "abc", sampleStore) [Access.size, Access.getText 0 2] ∧
    (∃ out : String, Store.toString sampleStore 0 =
      Exec.ok (out, sampleStore) [Access.size, Access.getText 0 2]) ∧
    (∃ (σ₁ : Store) (t₁ : CommonToken),
      Store.setText sampleStore 0 (some "xyz") = Exec.ok σ₁ [] ∧
      σ₁.objects[0]? = some t₁ ∧
      t₁ = sampleToken.setText (some "xyz") ∧ t₁._text = some "xyz" ∧
      t₁.source = sampleToken.source ∧ t₁.tokenType = sampleToken.tokenType ∧
      t₁.channel = sampleToken.channel ∧ t₁.start = sampleToken.start ∧
      t₁.stop = sampleToken.stop ∧ t₁.tokenIndex = sampleToken.tokenIndex ∧
      t₁.line = sampleToken.line ∧ t₁.column = sampleToken.column ∧
      ∀ b : Addr, b ≠ 0 → σ₁.objects[b]? = sampleStore.objects[b]?) :=
  ⟨rfl, rfl,
    (setText_text_toString_frame sampleStore 0 sampleToken (some "xyz") (some "abc")
      [Access.size, Access.getText 0 2] rfl rfl).2.1,
    (setText_text_toString_frame sampleStore 0 sampleToken (some "xyz") (some "abc")
      [Access.size, Access.getText 0 2] rfl rfl).2.2,
    (setText_text_toString_frame sampleStore 0 sampleToken (some "xyz") (some "abc")
      [Access.size, Access.getText 0 2] rfl rfl).1⟩

end Antlr4
